import Mathlib

/-!
Shallow embedding of `src/data_processing/data_processing.py`.

Python dicts are modelled as association lists in insertion order (iteration
order of a `dict` is insertion order); `dict.__getitem__` on a missing key
(KeyError) and an uncaught `ValueError` are modelled with `Except Unit`.
`datetime` values are modelled by a record of calendar fields, and
`datetime.strptime` by an executable parser that follows the regular
expressions Python's `_strptime` uses for the directives `%Y %m %d %H %M %S`
together with the range validation `datetime.__init__` performs.
Python floats are modelled by `Rat`: every numeric string the code can feed
to `float` (digits and dots only, after the `re.sub` strip) denotes an exact
decimal, so `Rat` captures equality of the stored values.
-/

/-- First-match lookup in an association list, like `dict.__getitem__`
(returning `none` where Python would raise `KeyError`). -/
def lookupAssoc {α : Type} (l : List (String × α)) (k : String) : Option α :=
  match l with
  | [] => none
  | (k0, v0) :: rest => if k0 = k then some v0 else lookupAssoc rest k

/-- `dict.update({k: v})`: replace in place if the key exists, else append. -/
def updateAssoc {α : Type} (l : List (String × α)) (k : String) (v : α) :
    List (String × α) :=
  match l with
  | [] => [(k, v)]
  | (k0, v0) :: rest =>
    if k0 = k then (k, v) :: rest else (k0, v0) :: updateAssoc rest k v

/-- Model of a Python `datetime` (the fields the program uses). -/
structure DateTime where
  year : Nat
  month : Nat
  day : Nat
  hour : Nat
  minute : Nat
  second : Nat
deriving DecidableEq, Repr

/-- `%Y` in `_strptime`: exactly four digits. -/
def parseYear4 : List Char → Option (Nat × List Char)
  | a :: b :: c :: d :: rest =>
    if a.isDigit ∧ b.isDigit ∧ c.isDigit ∧ d.isDigit then
      some ((((a.toNat - 48) * 10 + (b.toNat - 48)) * 10 + (c.toNat - 48)) * 10
        + (d.toNat - 48), rest)
    else none
  | _ => none

/-- `%m` in `_strptime`: ordered alternation `1[0-2]|0[1-9]|[1-9]`. -/
def parseMonthChars : List Char → Option (Nat × List Char)
  | a :: b :: rest =>
    if a = '1' ∧ ('0' ≤ b ∧ b ≤ '2') then some (10 + (b.toNat - 48), rest)
    else if a = '0' ∧ ('1' ≤ b ∧ b ≤ '9') then some (b.toNat - 48, rest)
    else if '1' ≤ a ∧ a ≤ '9' then some (a.toNat - 48, b :: rest)
    else none
  | [a] => if '1' ≤ a ∧ a ≤ '9' then some (a.toNat - 48, []) else none
  | [] => none

/-- `%d` in `_strptime`: ordered alternation `3[01]|[12]\d|0[1-9]|[1-9]| [1-9]`. -/
def parseDayChars : List Char → Option (Nat × List Char)
  | a :: b :: rest =>
    if a = '3' ∧ (b = '0' ∨ b = '1') then some (30 + (b.toNat - 48), rest)
    else if (a = '1' ∨ a = '2') ∧ b.isDigit then
      some ((a.toNat - 48) * 10 + (b.toNat - 48), rest)
    else if a = '0' ∧ ('1' ≤ b ∧ b ≤ '9') then some (b.toNat - 48, rest)
    else if '1' ≤ a ∧ a ≤ '9' then some (a.toNat - 48, b :: rest)
    else if a = ' ' ∧ ('1' ≤ b ∧ b ≤ '9') then some (b.toNat - 48, rest)
    else none
  | [a] => if '1' ≤ a ∧ a ≤ '9' then some (a.toNat - 48, []) else none
  | [] => none

/-- `%H` in `_strptime`: ordered alternation `2[0-3]|[0-1]\d|\d`. -/
def parseHourChars : List Char → Option (Nat × List Char)
  | a :: b :: rest =>
    if a = '2' ∧ ('0' ≤ b ∧ b ≤ '3') then some (20 + (b.toNat - 48), rest)
    else if (a = '0' ∨ a = '1') ∧ b.isDigit then
      some ((a.toNat - 48) * 10 + (b.toNat - 48), rest)
    else if a.isDigit then some (a.toNat - 48, b :: rest)
    else none
  | [a] => if a.isDigit then some (a.toNat - 48, []) else none
  | [] => none

/-- `%M` in `_strptime`: ordered alternation `[0-5]\d|\d`. -/
def parseMinuteChars : List Char → Option (Nat × List Char)
  | a :: b :: rest =>
    if ('0' ≤ a ∧ a ≤ '5') ∧ b.isDigit then
      some ((a.toNat - 48) * 10 + (b.toNat - 48), rest)
    else if a.isDigit then some (a.toNat - 48, b :: rest)
    else none
  | [a] => if a.isDigit then some (a.toNat - 48, []) else none
  | [] => none

/-- `%S` in `_strptime`: ordered alternation `6[0-1]|[0-5]\d|\d`
(leap seconds pass the regex but are rejected by `datetime.__init__`). -/
def parseSecondChars : List Char → Option (Nat × List Char)
  | a :: b :: rest =>
    if a = '6' ∧ (b = '0' ∨ b = '1') then some (60 + (b.toNat - 48), rest)
    else if ('0' ≤ a ∧ a ≤ '5') ∧ b.isDigit then
      some ((a.toNat - 48) * 10 + (b.toNat - 48), rest)
    else if a.isDigit then some (a.toNat - 48, b :: rest)
    else none
  | [a] => if a.isDigit then some (a.toNat - 48, []) else none
  | [] => none

/-- A literal character of the format string. -/
def parseLit (c : Char) : List Char → Option (List Char)
  | a :: rest => if a = c then some rest else none
  | [] => none

def isLeapYear (y : Nat) : Bool :=
  decide ((y % 4 = 0 ∧ y % 100 ≠ 0) ∨ y % 400 = 0)

def daysInMonth (y m : Nat) : Nat :=
  if m = 2 then (if isLeapYear y then 29 else 28)
  else if m = 4 ∨ m = 6 ∨ m = 9 ∨ m = 11 then 30
  else 31

/-- The range checks `datetime.__init__` performs on the fields the regexes
let through: year at least 1, a calendar-valid day, second at most 59. -/
def mkDateTime (y mo d h mi s : Nat) : Option DateTime :=
  if 1 ≤ y ∧ d ≤ daysInMonth y mo ∧ s ≤ 59 then
    some ⟨y, mo, d, h, mi, s⟩
  else none

/-- `datetime.strptime` against `%Y-%m-%d`, then the separator `sep`, then
`%H:%M:%S`, then (when `trailZ`) a literal `Z`; the whole string must be
consumed (`unconverted data remains` otherwise). `none` models the
`ValueError` Python raises on failure. -/
def strptimeYmdHMS (value : String) (sep : Char) (trailZ : Bool) :
    Option DateTime := do
  let l := value.toList
  let (y, r1) ← parseYear4 l
  let r2 ← parseLit '-' r1
  let (mo, r3) ← parseMonthChars r2
  let r4 ← parseLit '-' r3
  let (d, r5) ← parseDayChars r4
  let r6 ← parseLit sep r5
  let (h, r7) ← parseHourChars r6
  let r8 ← parseLit ':' r7
  let (mi, r9) ← parseMinuteChars r8
  let r10 ← parseLit ':' r9
  let (s, r11) ← parseSecondChars r10
  let r12 ← (if trailZ then parseLit 'Z' r11 else some r11)
  if r12 = [] then mkDateTime y mo d h mi s else none

/-- A value held by the program after conversion.  In Python both the
`'string'` branch of `convert_values` (`str(value)` on a `str`) and the
catch-all branch return the scraped string itself, so both map to `str`. -/
inductive PyValue where
  | num (q : Rat)
  | str (s : String)
deriving DecidableEq, Repr

def natOfDigits (l : List Char) : Nat :=
  l.foldl (fun n c => n * 10 + (c.toNat - 48)) 0

/-- Split a character list at every dot (the pieces between dots, in
order; `n` dots give `n + 1` pieces). -/
def splitDots (l : List Char) : List (List Char) :=
  match l with
  | [] => [[]]
  | c :: rest =>
    if c = '.' then [] :: splitDots rest
    else
      match splitDots rest with
      | [] => [[c]]
      | p :: ps => (c :: p) :: ps

/-- `float(s)` for a string consisting only of digits and dots (the only
shape `convert_to_float` can produce after its `re.sub`): an optional
integer part and an optional fractional part around at most one dot, with
at least one digit in total; `none` models `ValueError`. -/
def pyFloatOfDigitsDots (s : String) : Option Rat :=
  match splitDots s.toList with
  | [i] =>
    if i ≠ [] ∧ i.all Char.isDigit then
      some (natOfDigits i : Rat)
    else none
  | [i, f] =>
    if (i ≠ [] ∨ f ≠ []) ∧ i.all Char.isDigit ∧ f.all Char.isDigit then
      some ((natOfDigits i : Rat)
        + (natOfDigits f : Rat) / ((10 : Rat) ^ f.length))
    else none
  | _ => none

/-- `Measurements.convert_to_float` / `DataList.convert_to_float`:
`re.sub(r"[^0-9.]+", "", string)` then `float(...)`; `none` models the
`ValueError` that `float` raises on a malformed remainder. -/
def convert_to_float (string : String) : Option Rat :=
  let numeric_string := String.mk (string.toList.filter fun c => c.isDigit ∨ c = '.')
  pyFloatOfDigitsDots numeric_string

/-- `Measurements.convert_to_date` / `DataList.convert_to_date`:
`datetime.strptime(value, "%Y-%m-%d %H:%M:%S")`; `none` models the
`ValueError` raised on failure. -/
def convert_to_date (value : String) : Option DateTime :=
  strptimeYmdHMS value ' ' false

/-- `convert_values`: `'float'` converts (and may fail), `'string'` applies
`str` (identity on the scraped string), anything else passes the raw value
through unchanged. -/
def convert_values (value : String) (value_type : String) : Option PyValue :=
  if value_type = "float" then (convert_to_float value).map PyValue.num
  else if value_type = "string" then some (PyValue.str value)
  else some (PyValue.str value)

/-- `Measurement.__init__`: a timestamp id, the field template
(field id to declared-type string), the cached time of the last stored
data, and the stored data of the last scrape. -/
structure Measurement where
  timestamp_id : String
  dict_template : List (String × String)
  time : Option DateTime
  data : List (String × PyValue)
deriving DecidableEq, Repr

/-- `Measurement.__init__` with an empty cache, as built from the yaml. -/
def Measurement.init (timestamp : String) (dict_template : List (String × String)) :
    Measurement :=
  { timestamp_id := timestamp, dict_template := dict_template,
    time := none, data := [] }

/-- The inner template loop of `Measurements.store_data`: scan
`dict_template`; at a key equal to the scraped id, convert the scraped
value and `update` the data dict, continuing the scan; a `ValueError`
from the conversion breaks out of this loop with the data so far. -/
def templateScan (data : List (String × PyValue))
    (tmpl : List (String × String)) (key value : String) :
    List (String × PyValue) :=
  match tmpl with
  | [] => data
  | (k, v) :: rest =>
    if k = key then
      match convert_values value v with
      | none => data
      | some corrected_value => templateScan (updateAssoc data k corrected_value) rest key value
    else templateScan data rest key value

/-- The scan of one `Measurement` over the scraped items inside
`Measurements.store_data`.  At the timestamp id the time string is parsed
by `convert_to_date` with no surrounding `try`, so a parse failure is an
uncaught `ValueError` (`Except.error`); a re-scraped equal time breaks out
of the loop (the `time is None` disjunct of the source is unreachable,
`strptime` having raised instead of returning `None`); a new time is
cached and the scan continues.  Any other scraped id goes through the
template loop. -/
def measScan (m : Measurement) (raw_data : List (String × String)) :
    Except Unit Measurement :=
  match raw_data with
  | [] => .ok m
  | (key, value) :: rest =>
    if m.timestamp_id = key then
      match convert_to_date value with
      | none => .error ()
      | some time =>
        if some time = m.time then .ok m
        else measScan { m with time := some time } rest
    else
      measScan { m with data := templateScan m.data m.dict_template key value } rest

/-- `Except`-valued `map`, modelling a Python loop whose body may raise:
the first raise aborts the whole call (the partial in-place mutation the
source leaves behind is not observable through the `Except` result). -/
def mapExcept {α β : Type} (f : α → Except Unit β) : List α → Except Unit (List β)
  | [] => .ok []
  | a :: as =>
    match f a, mapExcept f as with
    | .ok b, .ok bs => .ok (b :: bs)
    | .error e, _ => .error e
    | _, .error e => .error e

/-- `Measurements.store_data`: for each `Measurement`, re-initialize its
data to an empty dict and scan the whole scraped dict in iteration
order. -/
def Measurements.store_data (measurement_list : List Measurement)
    (raw_data : List (String × String)) : Except Unit (List Measurement) :=
  mapExcept (fun m => measScan { m with data := [] } raw_data) measurement_list

/-- Tags as scraped from yaml: a mapping of tag name to tag value. -/
def Tags : Type := List (String × String)
deriving instance DecidableEq, Repr for Tags

/-- `DataPoint`: `value` and `time` start as `None`; `source_id` falls back
to `name`, `tags` and `time_id` (from the `source_time` entry) to `None`,
mirroring the `try`/`except KeyError` defaults of `DataPoint.__init__`. -/
structure DataPoint where
  name : String
  data_type : String
  value : Option PyValue
  time : Option DateTime
  source_id : String
  tags : Option Tags
  time_id : Option String
deriving DecidableEq, Repr

/-- `DataPoint.__init__` from the fields present in the yaml entry. -/
def DataPoint.init (name : String) (data_type : String)
    (source_id : Option String) (tags : Option Tags)
    (source_time : Option String) : DataPoint :=
  { name := name, data_type := data_type, value := none, time := none,
    source_id := source_id.getD name, tags := tags, time_id := source_time }

/-- The state of a `DataList` that `store_data` reads and mutates: the
point list and the `timestamps` cache of raw time strings (each declared
timestamp id starts at `None`). -/
structure DataList where
  data_list : List DataPoint
  timestamps : List (String × Option String)
deriving DecidableEq, Repr

/-- The timestamp loop of `DataList.store_data` (its first two `for`
loops fused as the source runs them: flags initialized to `False`, then
each scraped time looked up in the cache — `KeyError`, hence
`Except.error`, when its id was never declared — and, when it differs
from the cached raw string and is not `None`, the flag set and the cache
overwritten with the raw string; no parsing or ordering is involved). -/
def scanTimes (timestamps : List (String × Option String))
    (update_flag : List (String × Bool))
    (scraped_time : List (String × Option String)) :
    Except Unit (List (String × Option String) × List (String × Bool)) :=
  match scraped_time with
  | [] => .ok (timestamps, update_flag)
  | (time_id, timestamp) :: rest =>
    match lookupAssoc timestamps time_id with
    | none => .error ()
    | some cached =>
      if timestamp ≠ cached ∧ timestamp ≠ none then
        scanTimes (updateAssoc timestamps time_id timestamp)
          (updateAssoc update_flag time_id true) rest
      else scanTimes timestamps update_flag rest

/-- `update_flag` as initialized by `DataList.store_data`: every declared
timestamp id mapped to `False`. -/
def initFlags (timestamps : List (String × Option String)) : List (String × Bool) :=
  timestamps.map fun p => (p.fst, false)

/-- The lookup loop shared by both branches of the point update in
`DataList.store_data`: find the first scraped item whose id equals the
point's `source_id` and convert it, a `ValueError` being caught and
logged so the value stays `None`; the loop breaks after the first match
either way, and a miss leaves the value `None`. -/
def resolvePoint (scraped_data : List (String × String)) (dp : DataPoint) :
    Option PyValue :=
  match lookupAssoc scraped_data dp.source_id with
  | none => none
  | some value_data => convert_values value_data dp.data_type

/-- The per-point body of the third loop of `DataList.store_data`:
`value` is reset to `None` unconditionally; with no `time_id` the point's
`time` is stamped with `datetime.now()` (the `now` argument) and the
lookup runs; with a `time_id` the flag is read (`KeyError` when the id
was never declared) and the lookup runs only when it is `True` — `time`
is not assigned in that branch. -/
def storePoint (update_flag : List (String × Bool))
    (scraped_data : List (String × String)) (now : DateTime)
    (dp : DataPoint) : Except Unit DataPoint :=
  let dp := { dp with value := none }
  match dp.time_id with
  | none =>
    .ok { dp with time := some now, value := resolvePoint scraped_data dp }
  | some time_id =>
    match lookupAssoc update_flag time_id with
    | none => .error ()
    | some flag =>
      if flag then .ok { dp with value := resolvePoint scraped_data dp }
      else .ok dp

/-- `DataList.store_data`: compute the flags and the new cache from the
scraped times, then update every point in order.  `now` stands for the
wall-clock `datetime.now()` of the call. -/
def DataList.store_data (dl : DataList)
    (scraped_data : List (String × String))
    (scraped_time : List (String × Option String)) (now : DateTime) :
    Except Unit DataList := do
  let (timestamps, update_flag) ←
    scanTimes dl.timestamps (initFlags dl.timestamps) scraped_time
  let points ← mapExcept (storePoint update_flag scraped_data now) dl.data_list
  return { data_list := points, timestamps := timestamps }

/-- `Shot.__init__` parses both bounds with `%Y-%m-%dT%H:%M:%SZ`. -/
structure Shot where
  tags : Tags
  start_time : DateTime
  stop_time : DateTime
deriving DecidableEq, Repr

/-- `Shot.__init__`: `strptime` may raise on either bound. -/
def Shot.init (tags : Tags) (start_time stop_time : String) : Except Unit Shot :=
  match strptimeYmdHMS start_time 'T' true, strptimeYmdHMS stop_time 'T' true with
  | some s, some e => .ok ⟨tags, s, e⟩
  | _, _ => .error ()

/-- Python `datetime` comparison: lexicographic on the calendar fields. -/
def DateTime.ltb (a b : DateTime) : Bool :=
  if a.year ≠ b.year then a.year < b.year
  else if a.month ≠ b.month then a.month < b.month
  else if a.day ≠ b.day then a.day < b.day
  else if a.hour ≠ b.hour then a.hour < b.hour
  else if a.minute ≠ b.minute then a.minute < b.minute
  else a.second < b.second

/-- `Shot.__eq__`: start times only. -/
def Shot.eqb (a other : Shot) : Bool := a.start_time = other.start_time

/-- `Shot.__lt__`: start times only. -/
def Shot.ltb (a other : Shot) : Bool := DateTime.ltb a.start_time other.start_time

/-- `Shot.__gt__`: start times only. -/
def Shot.gtb (a other : Shot) : Bool := DateTime.ltb other.start_time a.start_time

/-- The field entries of a grouped-by-timestamp schema, flattened in
declaration order and paired with their owning `Measurement`: the
independent-per-field schema shape corresponding to a `Measurements`
schema has one `DataPoint` per such entry. -/
def fieldEntries (ms : List Measurement) : List ((String × String) × Measurement) :=
  ms.flatMap fun m => m.dict_template.map fun kv => (kv, m)

/-- A `DataPoint` embodies a template field of a `Measurement` when its
`source_id` is the field id, its `data_type` the declared type string, and
its `time_id` the measurement's timestamp id. -/
def pointSchemaCorr (p : DataPoint) (e : (String × String) × Measurement) : Prop :=
  p.source_id = e.1.1 ∧ p.data_type = e.1.2 ∧ p.time_id = some e.2.timestamp_id

/-- Observable per-field agreement: the point embodies the field and holds
exactly the value the measurement's data dict holds for that field
(`none` exactly when the key is absent). -/
def pointFullCorr (p : DataPoint) (e : (String × String) × Measurement) : Prop :=
  pointSchemaCorr p e ∧ p.value = lookupAssoc e.2.data e.1.1

/-- A cached raw time string on the `DataList` side represents a cached
parsed time on the `Measurements` side: both unset, or the string parses
to exactly the stored datetime. -/
def timeMatches : Option String → Option DateTime → Prop
  | none, t => t = none
  | some s, t => convert_to_date s = t ∧ t ≠ none

/-- Per-group agreement of stored times between the two schema shapes. -/
def timesCorr (ms : List Measurement) (dl : DataList) : Prop :=
  ∀ m ∈ ms, ∃ c, lookupAssoc dl.timestamps m.timestamp_id = some c ∧
    timeMatches c m.time

/-- The observable behavior the two reconciliation implementations are
claimed to share: the same per-field stored values and the same (raw
string vs parsed) per-group stored times. -/
def observablyAgree (ms : List Measurement) (dl : DataList) : Prop :=
  List.Forall₂ pointFullCorr dl.data_list (fieldEntries ms) ∧ timesCorr ms dl

/-- A one-group, one-field grouped-by-timestamp schema state with a
cached time of `2023-01-01 00:00:00`. -/
def exMeas : Measurement :=
  { timestamp_id := "t", dict_template := [("f", "float")],
    time := some ⟨2023, 1, 1, 0, 0, 0⟩, data := [] }

/-- `exMeas` after a cycle that stored the field value `12`. -/
def exMeasStored : Measurement :=
  { timestamp_id := "t", dict_template := [("f", "float")],
    time := some ⟨2023, 1, 1, 0, 0, 0⟩, data := [("f", PyValue.num 12)] }

/-- The independent-per-field schema state corresponding to `exMeas`: one
`DataPoint` for its field and the raw string cache for its group. -/
def exDL : DataList :=
  { data_list := [{ name := "f", data_type := "float", value := none,
                    time := none, source_id := "f", tags := none,
                    time_id := some "t" }],
    timestamps := [("t", some "2023-01-01 00:00:00")] }

theorem lookupAssoc_updateAssoc {α : Type} (l : List (String × α)) (k k' : String)
    (v : α) :
    lookupAssoc (updateAssoc l k v) k' = if k = k' then some v else lookupAssoc l k' := by
  induction l with
  | nil => by_cases h : k = k' <;> simp [updateAssoc, lookupAssoc, h]
  | cons p t ih =>
    obtain ⟨k0, v0⟩ := p
    by_cases h0 : k0 = k
    · subst h0
      by_cases h : k0 = k' <;> simp [updateAssoc, lookupAssoc, h]
    · by_cases h : k0 = k'
      · subst h
        have hkk : ¬ k = k0 := fun hh => h0 hh.symm
        simp [updateAssoc, lookupAssoc, h0, hkk]
      · simp [updateAssoc, lookupAssoc, h0, h, ih]

theorem lookupAssoc_isSome_updateAssoc {α : Type} (l : List (String × α))
    (k k' : String) (v : α) (h : (lookupAssoc l k').isSome) :
    (lookupAssoc (updateAssoc l k v) k').isSome := by
  rw [lookupAssoc_updateAssoc]
  by_cases hk : k = k' <;> simp [hk, h]


theorem lookupAssoc_initFlags (T : List (String × Option String)) (tid : String) :
    lookupAssoc (initFlags T) tid = (lookupAssoc T tid).map fun _ => false := by
  induction T with
  | nil => rfl
  | cons p t ih =>
    show lookupAssoc ((p.1, false) :: initFlags t) tid = _
    by_cases h : p.1 = tid
    · obtain ⟨k, v⟩ := p
      simp only at h
      simp [lookupAssoc, h]
    · obtain ⟨k, v⟩ := p
      simp only at h
      simp [lookupAssoc, h, ih]

theorem mapExcept_ok_get {α β : Type} {f : α → Except Unit β} :
    ∀ {l : List α} {l' : List β}, mapExcept f l = .ok l' →
      ∀ (i : Nat) (a : α), l[i]? = some a →
        ∃ b, l'[i]? = some b ∧ f a = .ok b := by
  intro l
  induction l with
  | nil => intro l' _ i a ha; simp at ha
  | cons x xs ih =>
    intro l' h i a ha
    cases hfa : f x with
    | error e => simp [mapExcept, hfa] at h
    | ok b =>
      cases hrec : mapExcept f xs with
      | error e => simp [mapExcept, hfa, hrec] at h
      | ok bs =>
        simp [mapExcept, hfa, hrec] at h
        subst h
        cases i with
        | zero =>
          simp at ha
          subst ha
          exact ⟨b, by simp, hfa⟩
        | succ n =>
          simp at ha ⊢
          exact ih hrec n a ha

theorem mapExcept_append {α β : Type} {f : α → Except Unit β}
    {l1 l2 : List α} {r1 r2 : List β} (h1 : mapExcept f l1 = .ok r1)
    (h2 : mapExcept f l2 = .ok r2) :
    mapExcept f (l1 ++ l2) = .ok (r1 ++ r2) := by
  induction l1 generalizing r1 with
  | nil =>
    simp [mapExcept] at h1
    subst h1
    simpa using h2
  | cons x xs ih =>
    cases hfa : f x with
    | error e => simp [mapExcept, hfa] at h1
    | ok b =>
      cases hrec : mapExcept f xs with
      | error e => simp [mapExcept, hfa, hrec] at h1
      | ok bs =>
        simp [mapExcept, hfa, hrec] at h1
        subst h1
        simp [mapExcept, hfa, ih hrec]

theorem scanTimes_stale {tid : String} {cached : Option String} {f0 : Bool} :
    ∀ {st T F T' F'},
      lookupAssoc T tid = some cached → lookupAssoc F tid = some f0 →
      (∀ ts, (tid, ts) ∈ st → ts = cached ∨ ts = none) →
      scanTimes T F st = .ok (T', F') →
      lookupAssoc T' tid = some cached ∧ lookupAssoc F' tid = some f0 := by
  intro st
  induction st with
  | nil =>
    intro T F T' F' hT hF _ hok
    simp [scanTimes] at hok
    obtain ⟨h1, h2⟩ := hok
    subst h1; subst h2
    exact ⟨hT, hF⟩
  | cons p rest ih =>
    intro T F T' F' hT hF hstale hok
    obtain ⟨tid', ts'⟩ := p
    have hstale2 : ∀ ts, (tid, ts) ∈ rest → ts = cached ∨ ts = none :=
      fun ts hts => hstale ts (List.mem_cons_of_mem _ hts)
    by_cases htid : tid' = tid
    · subst htid
      have hst : ts' = cached ∨ ts' = none := hstale ts' (List.mem_cons_self _ _)
      have hcond : ¬ (ts' ≠ cached ∧ ts' ≠ none) := by
        rcases hst with h | h <;> simp [h]
      simp only [scanTimes, hT, if_neg hcond] at hok
      exact ih hT hF hstale2 hok
    · cases hlk : lookupAssoc T tid' with
      | none => simp only [scanTimes, hlk] at hok; cases hok
      | some c' =>
        by_cases hcond : ts' ≠ c' ∧ ts' ≠ none
        · simp only [scanTimes, hlk, if_pos hcond] at hok
          have hT2 : lookupAssoc (updateAssoc T tid' ts') tid = some cached := by
            rw [lookupAssoc_updateAssoc, if_neg htid]; exact hT
          have hF2 : lookupAssoc (updateAssoc F tid' true) tid = some f0 := by
            rw [lookupAssoc_updateAssoc, if_neg htid]; exact hF
          exact ih hT2 hF2 hstale2 hok
        · simp only [scanTimes, hlk, if_neg hcond] at hok
          exact ih hT hF hstale2 hok

theorem scanTimes_preserve {tid : String} :
    ∀ {st T F T' F'}, tid ∉ st.map Prod.fst →
      scanTimes T F st = .ok (T', F') →
      lookupAssoc T' tid = lookupAssoc T tid ∧
      lookupAssoc F' tid = lookupAssoc F tid := by
  intro st
  induction st with
  | nil =>
    intro T F T' F' _ hok
    simp [scanTimes] at hok
    obtain ⟨h1, h2⟩ := hok
    subst h1; subst h2
    exact ⟨rfl, rfl⟩
  | cons p rest ih =>
    intro T F T' F' hmem hok
    obtain ⟨tid', ts'⟩ := p
    rw [List.map_cons, List.mem_cons] at hmem
    push_neg at hmem
    obtain ⟨htid', hmem2⟩ := hmem
    have htid : tid' ≠ tid := fun h => htid' h.symm
    cases hlk : lookupAssoc T tid' with
    | none => simp only [scanTimes, hlk] at hok; cases hok
    | some c' =>
      by_cases hcond : ts' ≠ c' ∧ ts' ≠ none
      · simp only [scanTimes, hlk, if_pos hcond] at hok
        have := ih hmem2 hok
        rw [this.1, this.2, lookupAssoc_updateAssoc, lookupAssoc_updateAssoc,
          if_neg htid, if_neg htid]
        exact ⟨rfl, rfl⟩
      · simp only [scanTimes, hlk, if_neg hcond] at hok
        exact ih hmem2 hok

theorem scanTimes_mem_char {tid : String} {ts cached : Option String} {f0 : Bool} :
    ∀ {st T F T' F'},
      (st.map Prod.fst).Nodup → (tid, ts) ∈ st →
      lookupAssoc T tid = some cached → lookupAssoc F tid = some f0 →
      scanTimes T F st = .ok (T', F') →
      if ts ≠ cached ∧ ts ≠ none then
        lookupAssoc T' tid = some ts ∧ lookupAssoc F' tid = some true
      else
        lookupAssoc T' tid = some cached ∧ lookupAssoc F' tid = some f0 := by
  intro st
  induction st with
  | nil => intro T F T' F' _ hmem; simp at hmem
  | cons p rest ih =>
    intro T F T' F' hnd hmem hT hF hok
    obtain ⟨tid', ts'⟩ := p
    rw [List.map_cons, List.nodup_cons] at hnd
    obtain ⟨hnotin, hnd2⟩ := hnd
    simp only at hnotin
    rcases List.mem_cons.mp hmem with heq | hmem2
    · obtain ⟨h1, h2⟩ := Prod.ext_iff.mp heq
      simp only at h1 h2
      subst h1; subst h2
      simp only [scanTimes, hT] at hok
      by_cases hcond : ts ≠ cached ∧ ts ≠ none
      · rw [if_pos hcond] at hok
        rw [if_pos hcond]
        have hpres := scanTimes_preserve hnotin hok
        rw [hpres.1, hpres.2, lookupAssoc_updateAssoc, lookupAssoc_updateAssoc]
        simp
      · rw [if_neg hcond] at hok
        rw [if_neg hcond]
        have hpres := scanTimes_preserve hnotin hok
        rw [hpres.1, hpres.2]
        exact ⟨hT, hF⟩
    · have htid : tid' ≠ tid := by
        intro h
        subst h
        exact hnotin (by simpa using List.mem_map_of_mem Prod.fst hmem2)
      cases hlk : lookupAssoc T tid' with
      | none => simp only [scanTimes, hlk] at hok; cases hok
      | some c' =>
        by_cases hcond : ts' ≠ c' ∧ ts' ≠ none
        · simp only [scanTimes, hlk, if_pos hcond] at hok
          have hT2 : lookupAssoc (updateAssoc T tid' ts') tid = some cached := by
            rw [lookupAssoc_updateAssoc, if_neg htid]; exact hT
          have hF2 : lookupAssoc (updateAssoc F tid' true) tid = some f0 := by
            rw [lookupAssoc_updateAssoc, if_neg htid]; exact hF
          exact ih hnd2 hmem2 hT2 hF2 hok
        · simp only [scanTimes, hlk, if_neg hcond] at hok
          exact ih hnd2 hmem2 hT hF hok

/-- Claim C4 (code_bug): contrary to the claim that no exception escapes the
reconcile call, `Measurements.store_data` parses a declared TimeGroup's raw
time with `convert_to_date` outside any `try`, so the unparsable time string
`"garbage"` raises a `ValueError` out of the call and the remaining fields
of the batch are never processed.  (The dead `time is None` test and the
"not found" log message in the source show containment was the intent.) -/
theorem measurements_unparsable_time_raises :
    Measurements.store_data
        [{ timestamp_id := "t", dict_template := [("f", "float")],
           time := none, data := [] }]
        [("t", "garbage"), ("f", "12")]
      = .error () ∧
    convert_to_date "garbage" = none :=
  ⟨rfl, rfl⟩

/-- Claim C7 (confirmed): float coercion strips every character that is not
a digit or a decimal point and parses the remainder: `"12.3 V"` coerces to
`12.3`, `"N/A"` strips to the empty string and fails, and a reconcile cycle
turns that failure into a `none` value instead of an exception. -/
theorem float_coercion_contract :
    convert_to_float "12.3 V" = some (12.3 : Rat) ∧
    convert_to_float "N/A" = none ∧
    DataList.store_data
        { data_list := [{ name := "p", data_type := "float", value := none,
                          time := none, source_id := "p", tags := none,
                          time_id := none }],
          timestamps := [] }
        [("p", "N/A")] [] ⟨2023, 1, 1, 0, 0, 0⟩
      = Except.ok
          { data_list := [{ name := "p", data_type := "float", value := none,
                            time := some ⟨2023, 1, 1, 0, 0, 0⟩, source_id := "p",
                            tags := none, time_id := none }],
            timestamps := [] } := by
  refine ⟨?_, rfl, rfl⟩
  have h : convert_to_float "12.3 V"
      = some ((natOfDigits ['1', '2'] : Rat)
          + (natOfDigits ['3'] : Rat) / (10 : Rat) ^ (1 : Nat)) := rfl
  have h12 : natOfDigits ['1', '2'] = 12 := rfl
  have h3 : natOfDigits ['3'] = 3 := rfl
  rw [h, h12, h3]
  norm_num

/-- Claim C10 (confirmed): `Measurements.store_data` is sensitive to the
iteration order of the raw snapshot.  With the cached time equal to the
scraped time (no advance), the ordering that presents the field `"f"`
before the timestamp key `"t"` still converts and stores `"f"` before the
loop breaks, ending the cycle with a non-empty data dict, while the
reverse ordering breaks first and ends with an empty one. -/
theorem measurements_snapshot_order_sensitivity :
    Measurements.store_data
        [{ timestamp_id := "t", dict_template := [("f", "float")],
           time := some ⟨2023, 1, 1, 0, 0, 0⟩, data := [] }]
        [("f", "12"), ("t", "2023-01-01 00:00:00")]
      = Except.ok
          [{ timestamp_id := "t", dict_template := [("f", "float")],
             time := some ⟨2023, 1, 1, 0, 0, 0⟩,
             data := [("f", PyValue.num 12)] }] ∧
    Measurements.store_data
        [{ timestamp_id := "t", dict_template := [("f", "float")],
           time := some ⟨2023, 1, 1, 0, 0, 0⟩, data := [] }]
        [("t", "2023-01-01 00:00:00"), ("f", "12")]
      = Except.ok
          [{ timestamp_id := "t", dict_template := [("f", "float")],
             time := some ⟨2023, 1, 1, 0, 0, 0⟩, data := [] }] ∧
    convert_to_date "2023-01-01 00:00:00" = some ⟨2023, 1, 1, 0, 0, 0⟩ :=
  ⟨rfl, rfl, rfl⟩

/-- Claim C8 (confirmed): the defined Shot ordering compares two Shots with
equal start times as equal (tags and stop times unconstrained and ignored),
and equality and ordering of Shots depend on the start time only: replacing
either Shot by any Shot with the same start time leaves all three
comparisons unchanged. -/
theorem shot_ordering_start_time_only (s1 s2 t1 t2 : Shot)
    (h1 : s1.start_time = t1.start_time) (h2 : s2.start_time = t2.start_time) :
    (s1.start_time = s2.start_time →
      Shot.eqb s1 s2 = true ∧ Shot.ltb s1 s2 = false ∧ Shot.gtb s1 s2 = false) ∧
    Shot.eqb s1 s2 = Shot.eqb t1 t2 ∧ Shot.ltb s1 s2 = Shot.ltb t1 t2 ∧
    Shot.gtb s1 s2 = Shot.gtb t1 t2 := by
  constructor
  · intro h
    refine ⟨?_, ?_, ?_⟩ <;>
      simp [Shot.eqb, Shot.ltb, Shot.gtb, DateTime.ltb, h]
  · exact ⟨by simp [Shot.eqb, h1, h2], by simp [Shot.ltb, h1, h2],
      by simp [Shot.gtb, h1, h2]⟩

/-- Witness for `shot_ordering_start_time_only`: two Shots sharing the
start time `2023-01-01T00:00:00Z` but with different stop times and tags
compare as equal and unordered, and swapping in Shots with the same starts
changes nothing. -/
theorem shot_ordering_start_time_only_witness :
    (Shot.eqb ⟨[("shot", "1")], ⟨2023, 1, 1, 0, 0, 0⟩, ⟨2023, 1, 1, 1, 0, 0⟩⟩
        ⟨[], ⟨2023, 1, 1, 0, 0, 0⟩, ⟨2023, 1, 2, 0, 0, 0⟩⟩ = true ∧
      Shot.ltb ⟨[("shot", "1")], ⟨2023, 1, 1, 0, 0, 0⟩, ⟨2023, 1, 1, 1, 0, 0⟩⟩
        ⟨[], ⟨2023, 1, 1, 0, 0, 0⟩, ⟨2023, 1, 2, 0, 0, 0⟩⟩ = false ∧
      Shot.gtb ⟨[("shot", "1")], ⟨2023, 1, 1, 0, 0, 0⟩, ⟨2023, 1, 1, 1, 0, 0⟩⟩
        ⟨[], ⟨2023, 1, 1, 0, 0, 0⟩, ⟨2023, 1, 2, 0, 0, 0⟩⟩ = false) ∧
    Shot.eqb ⟨[("shot", "1")], ⟨2023, 1, 1, 0, 0, 0⟩, ⟨2023, 1, 1, 1, 0, 0⟩⟩
        ⟨[], ⟨2023, 1, 1, 0, 0, 0⟩, ⟨2023, 1, 2, 0, 0, 0⟩⟩
      = Shot.eqb ⟨[], ⟨2023, 1, 1, 0, 0, 0⟩, ⟨2024, 1, 1, 0, 0, 0⟩⟩
        ⟨[("x", "y")], ⟨2023, 1, 1, 0, 0, 0⟩, ⟨2025, 1, 1, 0, 0, 0⟩⟩ ∧
    Shot.ltb ⟨[("shot", "1")], ⟨2023, 1, 1, 0, 0, 0⟩, ⟨2023, 1, 1, 1, 0, 0⟩⟩
        ⟨[], ⟨2023, 1, 1, 0, 0, 0⟩, ⟨2023, 1, 2, 0, 0, 0⟩⟩
      = Shot.ltb ⟨[], ⟨2023, 1, 1, 0, 0, 0⟩, ⟨2024, 1, 1, 0, 0, 0⟩⟩
        ⟨[("x", "y")], ⟨2023, 1, 1, 0, 0, 0⟩, ⟨2025, 1, 1, 0, 0, 0⟩⟩ ∧
    Shot.gtb ⟨[("shot", "1")], ⟨2023, 1, 1, 0, 0, 0⟩, ⟨2023, 1, 1, 1, 0, 0⟩⟩
        ⟨[], ⟨2023, 1, 1, 0, 0, 0⟩, ⟨2023, 1, 2, 0, 0, 0⟩⟩
      = Shot.gtb ⟨[], ⟨2023, 1, 1, 0, 0, 0⟩, ⟨2024, 1, 1, 0, 0, 0⟩⟩
        ⟨[("x", "y")], ⟨2023, 1, 1, 0, 0, 0⟩, ⟨2025, 1, 1, 0, 0, 0⟩⟩ :=
  ((shot_ordering_start_time_only
      ⟨[("shot", "1")], ⟨2023, 1, 1, 0, 0, 0⟩, ⟨2023, 1, 1, 1, 0, 0⟩⟩
      ⟨[], ⟨2023, 1, 1, 0, 0, 0⟩, ⟨2023, 1, 2, 0, 0, 0⟩⟩
      ⟨[], ⟨2023, 1, 1, 0, 0, 0⟩, ⟨2024, 1, 1, 0, 0, 0⟩⟩
      ⟨[("x", "y")], ⟨2023, 1, 1, 0, 0, 0⟩, ⟨2025, 1, 1, 0, 0, 0⟩⟩
      rfl rfl).imp (fun h => h rfl) id)

/-- Claim C2 (corrected), counterexample: a DataPoint bound to TimeGroup
`"t"` holds value `5`; the new cycle re-scrapes the identical raw time, so
the group does not advance — yet after the call the point's value is
`none`, not its prior `5`, because `DataList.store_data` resets
`datapoint.value = None` unconditionally before testing the flag.  Only
`time` is preserved. -/
theorem stale_group_value_reset_counterexample :
    DataList.store_data
        { data_list := [{ name := "p", data_type := "float",
                          value := some (PyValue.num 5), time := none,
                          source_id := "p", tags := none, time_id := some "t" }],
          timestamps := [("t", some "2023-01-01 00:00:00")] }
        [("p", "7")] [("t", some "2023-01-01 00:00:00")] ⟨2023, 1, 1, 0, 5, 0⟩
      = Except.ok
          { data_list := [{ name := "p", data_type := "float", value := none,
                            time := none, source_id := "p", tags := none,
                            time_id := some "t" }],
            timestamps := [("t", some "2023-01-01 00:00:00")] } ∧
    (some (PyValue.num 5) : Option PyValue) ≠ none :=
  ⟨rfl, by simp⟩

/-- Claim C3 (corrected), counterexample: the point's TimeGroup advances
and the fresh value `7` is stored, but its `time` field is never assigned
(it stays `none`, unchanged), and its prior value `5` is lost.  The
claimed tri-state — fresh value with an updated time, or unchanged prior
value and time, or value `none` — covers none of these outcomes: the
value is fresh yet the time did not change (nor was it set to the call
time), the value is not the prior one, and it is not `none`. -/
theorem reconcile_tristate_counterexample :
    DataList.store_data
        { data_list := [{ name := "p", data_type := "float",
                          value := some (PyValue.num 5), time := none,
                          source_id := "p", tags := none, time_id := some "t" }],
          timestamps := [("t", some "2023-01-01 00:00:00")] }
        [("p", "7")] [("t", some "2023-01-01 00:05:00")] ⟨2023, 1, 1, 0, 6, 0⟩
      = Except.ok
          { data_list := [{ name := "p", data_type := "float",
                            value := some (PyValue.num 7), time := none,
                            source_id := "p", tags := none,
                            time_id := some "t" }],
            timestamps := [("t", some "2023-01-01 00:05:00")] } ∧
    ¬ ((some (PyValue.num 7) ≠ (none : Option PyValue) ∧
          ((none : Option DateTime) ≠ none ∨
            (none : Option DateTime) = some ⟨2023, 1, 1, 0, 6, 0⟩)) ∨
        (some (PyValue.num 7) = some (PyValue.num 5) ∧
          (none : Option DateTime) = none) ∨
        some (PyValue.num 7) = (none : Option PyValue)) :=
  ⟨rfl, by decide⟩

/-- Claim C5 (corrected), counterexample: the cached raw time is the
parseable `2023-01-02 00:00:00`; the new cycle scrapes the unparsable
string `"garbage"`.  Because `DataList.store_data` compares raw strings
and never parses, the cache is overwritten with `"garbage"` and the
dependent DataPoint is treated as advanced (its value is stored) — the
cache did not move forward in wall-clock terms and the incoming string
did not parse. -/
theorem timegroup_unparsable_advance_counterexample :
    DataList.store_data
        { data_list := [{ name := "p", data_type := "float", value := none,
                          time := none, source_id := "p", tags := none,
                          time_id := some "t" }],
          timestamps := [("t", some "2023-01-02 00:00:00")] }
        [("p", "7")] [("t", some "garbage")] ⟨2023, 1, 2, 0, 5, 0⟩
      = Except.ok
          { data_list := [{ name := "p", data_type := "float",
                            value := some (PyValue.num 7), time := none,
                            source_id := "p", tags := none,
                            time_id := some "t" }],
            timestamps := [("t", some "garbage")] } ∧
    convert_to_date "garbage" = none :=
  ⟨rfl, rfl⟩

theorem store_data_ok_elim {dl : DataList} {sd : List (String × String)}
    {st : List (String × Option String)} {now : DateTime} {dl' : DataList}
    (hok : DataList.store_data dl sd st now = .ok dl') :
    ∃ T F pts, scanTimes dl.timestamps (initFlags dl.timestamps) st = .ok (T, F) ∧
      mapExcept (storePoint F sd now) dl.data_list = .ok pts ∧
      dl' = { data_list := pts, timestamps := T } := by
  cases hscan : scanTimes dl.timestamps (initFlags dl.timestamps) st with
  | error e =>
    simp [DataList.store_data, hscan, bind, Except.bind] at hok
  | ok TF =>
    obtain ⟨T, F⟩ := TF
    cases hmap : mapExcept (storePoint F sd now) dl.data_list with
    | error e =>
      simp [DataList.store_data, hscan, hmap, bind, Except.bind] at hok
    | ok pts =>
      refine ⟨T, F, pts, rfl, hmap, ?_⟩
      simp [DataList.store_data, hscan, hmap, bind, Except.bind, pure,
        Except.pure] at hok
      exact hok.symm

theorem resolvePoint_reset (sd : List (String × String)) (dp : DataPoint) :
    resolvePoint sd { dp with value := none } = resolvePoint sd dp := rfl

/-- Claim C2 (corrected), amended: for every DataPoint with `time_id` set,
if every raw time scraped for its TimeGroup this cycle equals the group's
previously cached raw string or is `None` (in particular when the group is
not scraped at all), then after the call the DataPoint's `time` is exactly
its value before the call, but its `value` has been reset to `none` (the
unconditional per-cycle reset), not preserved. -/
theorem stale_group_frame_amended
    (dl : DataList) (sd : List (String × String))
    (st : List (String × Option String)) (now : DateTime) (dl' : DataList)
    (i : Nat) (dp : DataPoint) (tid : String) (cached : Option String)
    (hok : DataList.store_data dl sd st now = .ok dl')
    (hdp : dl.data_list[i]? = some dp)
    (htid : dp.time_id = some tid)
    (hc : lookupAssoc dl.timestamps tid = some cached)
    (hstale : ∀ ts, (tid, ts) ∈ st → ts = cached ∨ ts = none) :
    ∃ dp', dl'.data_list[i]? = some dp' ∧ dp'.value = none ∧
      dp'.time = dp.time := by
  obtain ⟨T, F, pts, hscan, hmap, hdl'⟩ := store_data_ok_elim hok
  have hF0 : lookupAssoc (initFlags dl.timestamps) tid = some false := by
    rw [lookupAssoc_initFlags, hc]; rfl
  have hflag := (scanTimes_stale hc hF0 hstale hscan).2
  obtain ⟨dp', hdp', hsp⟩ := mapExcept_ok_get hmap i dp hdp
  refine ⟨dp', by rw [hdl']; exact hdp', ?_⟩
  have hdp2 : dp' = { dp with value := none, time_id := some tid } := by
    simp [storePoint, htid, hflag] at hsp
    exact hsp.symm
  subst hdp2
  exact ⟨rfl, rfl⟩

/-- Witness for `stale_group_frame_amended`: the concrete stale re-scrape
of `stale_group_value_reset_counterexample` instantiates it. -/
theorem stale_group_frame_amended_witness :
    ∃ dp', (({ data_list := [{ name := "p", data_type := "float", value := none,
                               time := none, source_id := "p", tags := none,
                               time_id := some "t" }],
               timestamps := [("t", some "2023-01-01 00:00:00")] } :
        DataList)).data_list[0]? = some dp' ∧ dp'.value = none ∧
      dp'.time = ({ name := "p", data_type := "float",
                    value := some (PyValue.num 5), time := none,
                    source_id := "p", tags := none,
                    time_id := some "t" } : DataPoint).time :=
  stale_group_frame_amended
    { data_list := [{ name := "p", data_type := "float",
                      value := some (PyValue.num 5), time := none,
                      source_id := "p", tags := none, time_id := some "t" }],
      timestamps := [("t", some "2023-01-01 00:00:00")] }
    [("p", "7")] [("t", some "2023-01-01 00:00:00")] ⟨2023, 1, 1, 0, 5, 0⟩
    _ 0 _ "t" (some "2023-01-01 00:00:00") rfl rfl rfl rfl
    (by
      intro ts hts
      simp at hts
      exact Or.inl hts)

/-- Claim C9 (confirmed): for every DataPoint whose `time_id` is set,
`DataList.store_data` never assigns its `time` field in any branch —
including the branch where its TimeGroup advanced and a fresh value is
stored — so the point's `time` after the call equals whatever it was
before (which is `None` from `DataPoint.__init__` unless set elsewhere). -/
theorem time_id_set_time_never_assigned
    (dl : DataList) (sd : List (String × String))
    (st : List (String × Option String)) (now : DateTime) (dl' : DataList)
    (i : Nat) (dp : DataPoint) (tid : String)
    (hok : DataList.store_data dl sd st now = .ok dl')
    (hdp : dl.data_list[i]? = some dp)
    (htid : dp.time_id = some tid) :
    ∃ dp', dl'.data_list[i]? = some dp' ∧ dp'.time = dp.time := by
  obtain ⟨T, F, pts, hscan, hmap, hdl'⟩ := store_data_ok_elim hok
  obtain ⟨dp', hdp', hsp⟩ := mapExcept_ok_get hmap i dp hdp
  refine ⟨dp', by rw [hdl']; exact hdp', ?_⟩
  cases hlk : lookupAssoc F tid with
  | none => simp [storePoint, htid, hlk] at hsp
  | some flag =>
    cases flag with
    | false =>
      have hdp2 : dp' = { dp with value := none, time_id := some tid } := by
        simp [storePoint, htid, hlk] at hsp
        exact hsp.symm
      subst hdp2; rfl
    | true =>
      have hdp2 :
          dp' = { dp with value := resolvePoint sd dp, time_id := some tid } := by
        simp [storePoint, htid, hlk] at hsp
        exact hsp.symm
      subst hdp2; rfl

/-- Witness for `time_id_set_time_never_assigned`: the advanced-group run
of `reconcile_tristate_counterexample` instantiates it — a fresh value is
stored but the point's `time` stays its pre-call `none`. -/
theorem time_id_set_time_never_assigned_witness :
    ∃ dp', (({ data_list := [{ name := "p", data_type := "float",
                               value := some (PyValue.num 7), time := none,
                               source_id := "p", tags := none,
                               time_id := some "t" }],
               timestamps := [("t", some "2023-01-01 00:05:00")] } :
        DataList)).data_list[0]? = some dp' ∧
      dp'.time = ({ name := "p", data_type := "float",
                    value := some (PyValue.num 5), time := none,
                    source_id := "p", tags := none,
                    time_id := some "t" } : DataPoint).time :=
  time_id_set_time_never_assigned
    { data_list := [{ name := "p", data_type := "float",
                      value := some (PyValue.num 5), time := none,
                      source_id := "p", tags := none, time_id := some "t" }],
      timestamps := [("t", some "2023-01-01 00:00:00")] }
    [("p", "7")] [("t", some "2023-01-01 00:05:00")] ⟨2023, 1, 1, 0, 6, 0⟩
    _ 0 _ "t" rfl rfl rfl

/-- Claim C6 (confirmed): for every DataPoint whose `time_id` is unset,
every `DataList.store_data` call stamps the point's `time` with the
wall-clock time of the call and attempts the lookup of its `source_id` in
the scraped snapshot — the stored value is exactly the result of that
lookup-and-convert, whether or not a value was found. -/
theorem no_time_id_always_stamped
    (dl : DataList) (sd : List (String × String))
    (st : List (String × Option String)) (now : DateTime) (dl' : DataList)
    (i : Nat) (dp : DataPoint)
    (hok : DataList.store_data dl sd st now = .ok dl')
    (hdp : dl.data_list[i]? = some dp)
    (htid : dp.time_id = none) :
    ∃ dp', dl'.data_list[i]? = some dp' ∧ dp'.time = some now ∧
      dp'.value = resolvePoint sd dp := by
  obtain ⟨T, F, pts, hscan, hmap, hdl'⟩ := store_data_ok_elim hok
  obtain ⟨dp', hdp', hsp⟩ := mapExcept_ok_get hmap i dp hdp
  refine ⟨dp', by rw [hdl']; exact hdp', ?_⟩
  have hdp2 :
      dp' = { dp with value := resolvePoint sd dp, time := some now, time_id := none } := by
    simp [storePoint, htid] at hsp
    exact hsp.symm
  subst hdp2
  exact ⟨rfl, rfl⟩

/-- Witness for `no_time_id_always_stamped`: a point with no `time_id`
whose `source_id` is absent from the snapshot still gets `time` stamped
with the call clock, and its value is the (empty) lookup result. -/
theorem no_time_id_always_stamped_witness :
    ∃ dp', (({ data_list := [{ name := "p", data_type := "float",
                               value := none,
                               time := some ⟨2023, 1, 1, 0, 0, 0⟩,
                               source_id := "p", tags := none,
                               time_id := none }],
               timestamps := [] } : DataList)).data_list[0]? = some dp' ∧
      dp'.time = some (⟨2023, 1, 1, 0, 0, 0⟩ : DateTime) ∧
      dp'.value = resolvePoint []
        { name := "p", data_type := "float", value := some (PyValue.num 5),
          time := none, source_id := "p", tags := none, time_id := none } :=
  no_time_id_always_stamped
    { data_list := [{ name := "p", data_type := "float",
                      value := some (PyValue.num 5), time := none,
                      source_id := "p", tags := none, time_id := none }],
      timestamps := [] }
    [] [] ⟨2023, 1, 1, 0, 0, 0⟩ _ 0 _ rfl rfl rfl

/-- Claim C3 (corrected), amended: after every `DataList.store_data` call,
every DataPoint's value is either `none` or the value freshly coerced this
cycle from the snapshot entry at its `source_id` (prior values are never
carried over, the per-cycle reset discards them), and its time is the
call-time clock when `time_id` is unset and is left untouched when
`time_id` is set (even when a fresh value was stored). -/
theorem reconcile_post_state_amended
    (dl : DataList) (sd : List (String × String))
    (st : List (String × Option String)) (now : DateTime) (dl' : DataList)
    (i : Nat) (dp : DataPoint)
    (hok : DataList.store_data dl sd st now = .ok dl')
    (hdp : dl.data_list[i]? = some dp) :
    ∃ dp', dl'.data_list[i]? = some dp' ∧
      (dp'.value = none ∨ ∃ raw, lookupAssoc sd dp.source_id = some raw ∧
        dp'.value = convert_values raw dp.data_type) ∧
      (dp.time_id = none → dp'.time = some now) ∧
      (dp.time_id ≠ none → dp'.time = dp.time) := by
  obtain ⟨T, F, pts, hscan, hmap, hdl'⟩ := store_data_ok_elim hok
  obtain ⟨dp', hdp', hsp⟩ := mapExcept_ok_get hmap i dp hdp
  refine ⟨dp', by rw [hdl']; exact hdp', ?_⟩
  cases htid : dp.time_id with
  | none =>
    have hdp2 :
        dp' = { dp with value := resolvePoint sd dp, time := some now, time_id := none } := by
      simp [storePoint, htid] at hsp
      exact hsp.symm
    subst hdp2
    refine ⟨?_, fun _ => rfl, fun h => absurd rfl h⟩
    cases hl : lookupAssoc sd dp.source_id with
    | none => exact Or.inl (by simp [resolvePoint, hl])
    | some raw => exact Or.inr ⟨raw, rfl, by simp [resolvePoint, hl]⟩
  | some tid =>
    cases hlk : lookupAssoc F tid with
    | none => simp [storePoint, htid, hlk] at hsp
    | some flag =>
      cases flag with
      | false =>
        have hdp2 : dp' = { dp with value := none, time_id := some tid } := by
          simp [storePoint, htid, hlk] at hsp
          exact hsp.symm
        subst hdp2
        exact ⟨Or.inl rfl, fun h => by simp [htid] at h, fun _ => rfl⟩
      | true =>
        have hdp2 :
            dp' = { dp with value := resolvePoint sd dp, time_id := some tid } := by
          simp [storePoint, htid, hlk] at hsp
          exact hsp.symm
        subst hdp2
        refine ⟨?_, fun h => by simp [htid] at h, fun _ => rfl⟩
        cases hl : lookupAssoc sd dp.source_id with
        | none => exact Or.inl (by simp [resolvePoint, hl])
        | some raw => exact Or.inr ⟨raw, rfl, by simp [resolvePoint, hl]⟩

/-- Witness for `reconcile_post_state_amended`: the advanced-group run of
`reconcile_tristate_counterexample`: the fresh value is the coercion of
the scraped `"7"`, and the point's time (its `time_id` being set) is
untouched. -/
theorem reconcile_post_state_amended_witness :
    ∃ dp', (({ data_list := [{ name := "p", data_type := "float",
                               value := some (PyValue.num 7), time := none,
                               source_id := "p", tags := none,
                               time_id := some "t" }],
               timestamps := [("t", some "2023-01-01 00:05:00")] } :
        DataList)).data_list[0]? = some dp' ∧
      (dp'.value = none ∨ ∃ raw, lookupAssoc [("p", "7")]
          ({ name := "p", data_type := "float",
             value := some (PyValue.num 5), time := none, source_id := "p",
             tags := none, time_id := some "t" } : DataPoint).source_id = some raw ∧
        dp'.value = convert_values raw
          ({ name := "p", data_type := "float",
             value := some (PyValue.num 5), time := none, source_id := "p",
             tags := none, time_id := some "t" } : DataPoint).data_type) ∧
      (({ name := "p", data_type := "float", value := some (PyValue.num 5),
          time := none, source_id := "p", tags := none,
          time_id := some "t" } : DataPoint).time_id = none →
        dp'.time = some ⟨2023, 1, 1, 0, 6, 0⟩) ∧
      (({ name := "p", data_type := "float", value := some (PyValue.num 5),
          time := none, source_id := "p", tags := none,
          time_id := some "t" } : DataPoint).time_id ≠ none →
        dp'.time = ({ name := "p", data_type := "float",
                      value := some (PyValue.num 5), time := none,
                      source_id := "p", tags := none,
                      time_id := some "t" } : DataPoint).time) :=
  reconcile_post_state_amended
    { data_list := [{ name := "p", data_type := "float",
                      value := some (PyValue.num 5), time := none,
                      source_id := "p", tags := none, time_id := some "t" }],
      timestamps := [("t", some "2023-01-01 00:00:00")] }
    [("p", "7")] [("t", some "2023-01-01 00:05:00")] ⟨2023, 1, 1, 0, 6, 0⟩
    _ 0 _ rfl rfl

/-- Claim C5 (corrected), amended: the TimeGroup cache update of
`DataList.store_data` replaces a group's cached raw time string exactly
when the scraped raw value is not `None` and differs from the cached
string as a string — no parsing and no ordering check happens, so the
cache can also move backward or to an unparsable string — and in exactly
that case the group's update flag is set (making every dependent
DataPoint eligible); otherwise both the cache entry and the flag are left
unchanged. -/
theorem timegroup_cache_amended
    (dl : DataList) (sd : List (String × String))
    (st : List (String × Option String)) (now : DateTime) (dl' : DataList)
    (tid : String) (ts cached : Option String)
    (hok : DataList.store_data dl sd st now = .ok dl')
    (hnd : (st.map Prod.fst).Nodup)
    (hmem : (tid, ts) ∈ st)
    (hc : lookupAssoc dl.timestamps tid = some cached) :
    ∃ F, scanTimes dl.timestamps (initFlags dl.timestamps) st
        = .ok (dl'.timestamps, F) ∧
      (if ts ≠ cached ∧ ts ≠ none then
        lookupAssoc dl'.timestamps tid = some ts ∧ lookupAssoc F tid = some true
      else
        lookupAssoc dl'.timestamps tid = some cached ∧
          lookupAssoc F tid = some false) := by
  obtain ⟨T, F, pts, hscan, hmap, hdl'⟩ := store_data_ok_elim hok
  have hF0 : lookupAssoc (initFlags dl.timestamps) tid = some false := by
    rw [lookupAssoc_initFlags, hc]; rfl
  have hchar := scanTimes_mem_char hnd hmem hc hF0 hscan
  have hT' : dl'.timestamps = T := by rw [hdl']
  rw [hT']
  exact ⟨F, hscan, hchar⟩

/-- Witness for `timegroup_cache_amended`: with cached raw string `"a"`
and scraped raw string `"b"` (different, non-`None`, neither parseable),
the cache is overwritten with `"b"` and the flag is set. -/
theorem timegroup_cache_amended_witness :
    ∃ F, scanTimes [("t", some "a")] (initFlags [("t", some "a")])
        [("t", some "b")] = .ok ([("t", some "b")], F) ∧
      (if (some "b" : Option String) ≠ some "a" ∧
          (some "b" : Option String) ≠ none then
        lookupAssoc [("t", some "b")] "t" = some (some "b") ∧
          lookupAssoc F "t" = some true
      else
        lookupAssoc [("t", some "b")] "t" = some (some "a") ∧
          lookupAssoc F "t" = some false) :=
  timegroup_cache_amended
    { data_list := [], timestamps := [("t", some "a")] }
    [] [("t", some "b")] ⟨2023, 1, 1, 0, 0, 0⟩
    { data_list := [], timestamps := [("t", some "b")] }
    "t" (some "b") (some "a") rfl (by simp) (by simp) rfl

/-- Claim C1 (corrected), counterexample: on corresponding schemas and
states (`exMeas` with cached parsed time versus `exDL` with the same
cached raw string; agreeing per-field values and per-group times), the
corresponding snapshot whose iteration order presents the field `"f"`
before the unchanged timestamp `"t"` makes `Measurements.store_data`
store `f = 12` (it converts fields until it reaches the timestamp and
breaks), while `DataList.store_data` leaves the point's value `none`
(its group did not advance) — so the two implementations do not produce
identical observable behavior. -/
theorem dual_reconcile_counterexample :
    List.Forall₂ pointFullCorr exDL.data_list (fieldEntries [exMeas]) ∧
    timesCorr [exMeas] exDL ∧
    Measurements.store_data [exMeas] [("f", "12"), ("t", "2023-01-01 00:00:00")]
      = .ok [exMeasStored] ∧
    DataList.store_data exDL [("f", "12")] [("t", some "2023-01-01 00:00:00")]
      ⟨2023, 1, 1, 0, 5, 0⟩ = .ok exDL ∧
    ¬ observablyAgree [exMeasStored] exDL := by
  refine ⟨?_, ?_, rfl, rfl, ?_⟩
  · exact List.Forall₂.cons ⟨⟨rfl, rfl, rfl⟩, rfl⟩ List.Forall₂.nil
  · intro m hm
    rw [List.mem_singleton] at hm
    subst hm
    exact ⟨some "2023-01-01 00:00:00", rfl, rfl, by simp [exMeas]⟩
  · intro h
    obtain ⟨hf, -⟩ := h
    have he : fieldEntries [exMeasStored] = [(("f", "float"), exMeasStored)] := rfl
    rw [he] at hf
    cases hf with
    | cons hc _ =>
      exact absurd hc.2 (by simp [exDL, exMeasStored, lookupAssoc])

theorem templateScan_notmem {tmpl : List (String × String)} {key : String}
    (data : List (String × PyValue)) (value : String)
    (h : key ∉ tmpl.map Prod.fst) :
    templateScan data tmpl key value = data := by
  induction tmpl with
  | nil => rfl
  | cons kv rest ih =>
    obtain ⟨k, v⟩ := kv
    rw [List.map_cons, List.mem_cons] at h
    push_neg at h
    have hne : k ≠ key := fun hh => h.1 hh.symm
    simp only [templateScan, if_neg hne]
    exact ih h.2

theorem lookupAssoc_templateScan_ne {key k : String} (h : key ≠ k)
    (tmpl : List (String × String)) (value : String) :
    ∀ data, lookupAssoc (templateScan data tmpl key value) k = lookupAssoc data k := by
  induction tmpl with
  | nil => intro data; rfl
  | cons kv rest ih =>
    intro data
    obtain ⟨k0, ty⟩ := kv
    by_cases h0 : k0 = key
    · subst h0
      cases hcv : convert_values value ty with
      | none =>
        have hts : templateScan data ((k0, ty) :: rest) k0 value = data := by
          simp [templateScan, hcv]
        rw [hts]
      | some cv =>
        have hts : templateScan data ((k0, ty) :: rest) k0 value
            = templateScan (updateAssoc data k0 cv) rest k0 value := by
          simp [templateScan, hcv]
        rw [hts, ih (updateAssoc data k0 cv), lookupAssoc_updateAssoc, if_neg h]
    · simp only [templateScan, if_neg h0]
      exact ih data

theorem templateScan_mem {tmpl : List (String × String)} {k ty : String}
    (hnd : (tmpl.map Prod.fst).Nodup) (hmem : (k, ty) ∈ tmpl)
    (data : List (String × PyValue)) (value : String) :
    templateScan data tmpl k value
      = ((convert_values value ty).map fun cv => updateAssoc data k cv).getD data := by
  induction tmpl with
  | nil => cases hmem
  | cons kv rest ih =>
    obtain ⟨k0, ty0⟩ := kv
    rw [List.map_cons, List.nodup_cons] at hnd
    obtain ⟨hnotin, hnd2⟩ := hnd
    simp only at hnotin
    rcases List.mem_cons.mp hmem with heq | hmem2
    · obtain ⟨h1, h2⟩ := Prod.ext_iff.mp heq
      simp only at h1 h2
      subst h1; subst h2
      cases hcv : convert_values value ty with
      | none => simp [templateScan, hcv]
      | some cv =>
        have hts : templateScan data ((k, ty) :: rest) k value
            = templateScan (updateAssoc data k cv) rest k value := by
          simp [templateScan, hcv]
        rw [hts, templateScan_notmem _ value hnotin]
        rfl
    · have hne : k0 ≠ k := by
        intro h
        subst h
        exact hnotin (by simpa using List.mem_map_of_mem Prod.fst hmem2)
      simp only [templateScan, if_neg hne]
      exact ih hnd2 hmem2

theorem measScan_skip {m : Measurement} :
    ∀ {es : List (String × String)} (rest : List (String × String)),
      (∀ p ∈ es, m.timestamp_id ≠ p.1 ∧ p.1 ∉ m.dict_template.map Prod.fst) →
      measScan m (es ++ rest) = measScan m rest := by
  intro es
  induction es with
  | nil => intro rest _; rfl
  | cons p t ih =>
    intro rest h
    obtain ⟨key, value⟩ := p
    have h1 := h (key, value) (List.mem_cons_self _ _)
    rw [List.cons_append]
    simp only [measScan, if_neg h1.1]
    rw [templateScan_notmem _ value h1.2]
    exact ih rest fun q hq => h q (List.mem_cons_of_mem _ hq)

theorem measScan_no_tid :
    ∀ (es : List (String × String)) (m : Measurement),
      (∀ p ∈ es, m.timestamp_id ≠ p.1) →
      measScan m es = .ok { m with data := es.foldl (fun d p => templateScan d m.dict_template p.1 p.2) m.data } := by
  intro es
  induction es with
  | nil => intro m _; rfl
  | cons p rest ih =>
    intro m h
    obtain ⟨key, value⟩ := p
    have hne : m.timestamp_id ≠ key := h (key, value) (List.mem_cons_self _ _)
    simp only [measScan, if_neg hne]
    exact ih { m with data := templateScan m.data m.dict_template key value }
      fun q hq => h q (List.mem_cons_of_mem _ hq)

theorem lookupAssoc_foldl_preserve {k : String}
    (tmpl : List (String × String)) :
    ∀ (rest : List (String × String)) (d0 : List (String × PyValue)),
      (∀ p ∈ rest, p.1 ≠ k) →
      lookupAssoc (rest.foldl (fun d p => templateScan d tmpl p.1 p.2) d0) k
        = lookupAssoc d0 k := by
  intro rest
  induction rest with
  | nil => intro d0 _; rfl
  | cons p t ih =>
    intro d0 h
    obtain ⟨key, value⟩ := p
    have hne : key ≠ k := h (key, value) (List.mem_cons_self _ _)
    rw [List.foldl_cons]
    rw [ih (templateScan d0 tmpl key value) fun q hq => h q (List.mem_cons_of_mem _ hq)]
    exact lookupAssoc_templateScan_ne hne tmpl value d0

theorem lookupAssoc_foldl_templateScan {tmpl : List (String × String)}
    {k ty : String} (hmem : (k, ty) ∈ tmpl)
    (htnd : (tmpl.map Prod.fst).Nodup) :
    ∀ (de : List (String × String)) (d0 : List (String × PyValue)),
      (de.map Prod.fst).Nodup → lookupAssoc d0 k = none →
      lookupAssoc (de.foldl (fun d p => templateScan d tmpl p.1 p.2) d0) k
        = ((lookupAssoc de k).map fun v => convert_values v ty).join := by
  intro de
  induction de with
  | nil => intro d0 _ h0; exact h0
  | cons p rest ih =>
    intro d0 hdnd h0
    obtain ⟨key, value⟩ := p
    rw [List.map_cons, List.nodup_cons] at hdnd
    obtain ⟨hnotin, hdnd2⟩ := hdnd
    simp only at hnotin
    by_cases hk : key = k
    · subst hk
      rw [List.foldl_cons, templateScan_mem htnd hmem d0 value]
      have hrest : ∀ p ∈ rest, p.1 ≠ key := by
        intro q hq heq
        exact hnotin (heq ▸ List.mem_map_of_mem Prod.fst hq)
      cases hcv : convert_values value ty with
      | none =>
        have hgd : ((none : Option PyValue).map fun cv =>
            updateAssoc d0 key cv).getD d0 = d0 := rfl
        rw [hgd, lookupAssoc_foldl_preserve tmpl rest d0 hrest, h0]
        simp [lookupAssoc, hcv]
      | some cv =>
        have hgd : ((some cv).map fun cv =>
            updateAssoc d0 key cv).getD d0 = updateAssoc d0 key cv := rfl
        rw [hgd, lookupAssoc_foldl_preserve tmpl rest (updateAssoc d0 key cv) hrest,
          lookupAssoc_updateAssoc, if_pos rfl]
        simp [lookupAssoc, hcv]
    · rw [List.foldl_cons]
      have h0' : lookupAssoc (templateScan d0 tmpl key value) k = none := by
        rw [lookupAssoc_templateScan_ne hk tmpl value d0]
        exact h0
      rw [ih (templateScan d0 tmpl key value) hdnd2 h0']
      have hlk : lookupAssoc ((key, value) :: rest) k = lookupAssoc rest k := by
        simp [lookupAssoc, hk]
      rw [hlk]

theorem scanTimes_isSome_ok :
    ∀ (st T : List (String × Option String)) (F : List (String × Bool)),
      (∀ p ∈ st, (lookupAssoc T p.1).isSome) →
      ∃ TF, scanTimes T F st = .ok TF := by
  intro st
  induction st with
  | nil => intro T F _; exact ⟨(T, F), rfl⟩
  | cons p rest ih =>
    intro T F h
    obtain ⟨tid, ts⟩ := p
    have hs := h (tid, ts) (List.mem_cons_self _ _)
    cases hlk : lookupAssoc T tid with
    | none => rw [hlk] at hs; simp at hs
    | some c =>
      by_cases hcond : ts ≠ c ∧ ts ≠ none
      · obtain ⟨TF, hTF⟩ := ih (updateAssoc T tid ts) (updateAssoc F tid true)
          fun q hq => lookupAssoc_isSome_updateAssoc T tid q.1 ts
            (h q (List.mem_cons_of_mem _ hq))
        exact ⟨TF, by simp only [scanTimes, hlk, if_pos hcond]; exact hTF⟩
      · obtain ⟨TF, hTF⟩ := ih T F fun q hq => h q (List.mem_cons_of_mem _ hq)
        exact ⟨TF, by simp only [scanTimes, hlk, if_neg hcond]; exact hTF⟩

theorem mapExcept_forall₂ {α β γ : Type} {f : α → Except Unit β}
    {R : α → γ → Prop} {S : β → γ → Prop}
    (h : ∀ a c, R a c → ∃ b, f a = .ok b ∧ S b c) :
    ∀ {l : List α} {g : List γ}, List.Forall₂ R l g →
      ∃ l', mapExcept f l = .ok l' ∧ List.Forall₂ S l' g := by
  intro l g hf
  induction hf with
  | nil => exact ⟨[], rfl, List.Forall₂.nil⟩
  | cons hR hrest ih =>
    obtain ⟨b, hfb, hS⟩ := h _ _ hR
    obtain ⟨l', hl', hS'⟩ := ih
    exact ⟨b :: l', by simp [mapExcept, hfb, hl'], List.Forall₂.cons hS hS'⟩

theorem forall₂_mem_right {α γ : Type} {R : α → γ → Prop} :
    ∀ {l : List α} {g : List γ}, List.Forall₂ R l g →
      List.Forall₂ (fun a c => R a c ∧ c ∈ g) l g := by
  intro l g h
  induction h with
  | nil => exact .nil
  | cons hR hrest ih =>
    exact .cons ⟨hR, List.mem_cons_self _ _⟩
      (ih.imp fun a c hc => ⟨hc.1, List.mem_cons_of_mem _ hc.2⟩)

theorem measurement_cycle
    {te de : List (String × String)} {F : List (String × Bool)}
    {now : DateTime} {m : Measurement} {pts : List DataPoint}
    {s : String} {c : Option String} {dt : DateTime}
    (hpts : List.Forall₂ pointSchemaCorr pts (m.dict_template.map fun kv => (kv, m)))
    (hste : (m.timestamp_id, s) ∈ te)
    (hndte : (te.map Prod.fst).Nodup)
    (hparse : convert_to_date s = some dt)
    (htnotfield : ∀ p ∈ te, p.1 ∉ m.dict_template.map Prod.fst)
    (hdnottid : ∀ p ∈ de, p.1 ≠ m.timestamp_id)
    (hdnd : (de.map Prod.fst).Nodup)
    (htmplnd : (m.dict_template.map Prod.fst).Nodup)
    (htm : timeMatches c m.time)
    (hiff : (some s ≠ c) ↔ (some dt ≠ m.time))
    (hflag : lookupAssoc F m.timestamp_id = some (decide (some s ≠ c))) :
    ∃ m', measScan { m with data := [] } (te ++ de) = .ok m' ∧
      m'.timestamp_id = m.timestamp_id ∧ m'.dict_template = m.dict_template ∧
      timeMatches (if some s ≠ c then some s else c) m'.time ∧
      ∃ pts', mapExcept (storePoint F de now) pts = .ok pts' ∧
        List.Forall₂ pointFullCorr pts' (m'.dict_template.map fun kv => (kv, m')) := by
  obtain ⟨pre, post, hte⟩ := List.append_of_mem hste
  subst hte
  have hmapnd := hndte
  rw [List.map_append, List.map_cons] at hmapnd
  have hpre_tid : m.timestamp_id ∉ pre.map Prod.fst := by
    intro hmem
    exact List.disjoint_of_nodup_append hmapnd hmem (List.mem_cons_self _ _)
  have hpost_tid : m.timestamp_id ∉ post.map Prod.fst :=
    (List.nodup_cons.mp (List.Nodup.of_append_right hmapnd)).1
  have hskip1 : measScan { m with data := [] }
      ((pre ++ (m.timestamp_id, s) :: post) ++ de)
      = measScan { m with data := [] } ((m.timestamp_id, s) :: (post ++ de)) := by
    rw [List.append_assoc, List.cons_append]
    exact measScan_skip _ fun p hp =>
      ⟨fun heq => hpre_tid (by rw [heq]; exact List.mem_map_of_mem Prod.fst hp),
        htnotfield p (List.mem_append_left _ hp)⟩
  have hstep : measScan { m with data := [] } ((m.timestamp_id, s) :: (post ++ de))
      = if some dt = m.time then .ok { m with data := [] }
        else measScan { m with data := [], time := some dt } (post ++ de) := by
    simp only [measScan, hparse, if_true]
  by_cases hadv : some dt = m.time
  · have hs_eq_c : some s = c := by
      by_contra hne
      exact (hiff.mp hne) hadv
    have hflag' : lookupAssoc F m.timestamp_id = some false := by
      rw [hflag]
      simp [hs_eq_c]
    refine ⟨{ m with data := [] }, ?_, rfl, rfl, ?_, ?_⟩
    · rw [hskip1, hstep, if_pos hadv]
    · rw [if_neg (by simp [hs_eq_c])]
      exact htm
    · rw [List.forall₂_map_right_iff] at hpts
      have hpts2 := forall₂_mem_right hpts
      have hpoint : ∀ (p : DataPoint) (kv : String × String),
          (pointSchemaCorr p (kv, m) ∧ kv ∈ m.dict_template) →
          ∃ b, storePoint F de now p = .ok b ∧
            pointFullCorr b (kv, { m with data := [] }) := by
        intro p kv hp
        obtain ⟨⟨hsrc, hty, htid⟩, hkvmem⟩ := hp
        refine ⟨{ p with value := none }, ?_, ⟨hsrc, hty, htid⟩, rfl⟩
        simp [storePoint, htid, hflag']
      obtain ⟨pts', hmap, hfull⟩ := mapExcept_forall₂ hpoint hpts2
      refine ⟨pts', hmap, ?_⟩
      rw [List.forall₂_map_right_iff]
      exact hfull
  · have hs_ne_c : some s ≠ c := hiff.mpr hadv
    have hflag' : lookupAssoc F m.timestamp_id = some true := by
      rw [hflag]
      simp [hs_ne_c]
    have hskip2 : measScan { m with data := [], time := some dt } (post ++ de)
        = measScan { m with data := [], time := some dt } de :=
      measScan_skip _ fun p hp =>
        ⟨fun heq => hpost_tid (by rw [heq]; exact List.mem_map_of_mem Prod.fst hp),
          htnotfield p (List.mem_append_right _ (List.mem_cons_of_mem _ hp))⟩
    have hacc := measScan_no_tid de { m with data := [], time := some dt }
      fun p hp heq => hdnottid p hp heq.symm
    refine ⟨{ m with
        data := de.foldl (fun d p => templateScan d m.dict_template p.1 p.2) [],
        time := some dt }, ?_, rfl, rfl, ?_, ?_⟩
    · rw [hskip1, hstep, if_neg hadv, hskip2]
      exact hacc
    · rw [if_pos hs_ne_c]
      exact ⟨hparse, by simp⟩
    · rw [List.forall₂_map_right_iff] at hpts
      have hpts2 := forall₂_mem_right hpts
      have hpoint : ∀ (p : DataPoint) (kv : String × String),
          (pointSchemaCorr p (kv, m) ∧ kv ∈ m.dict_template) →
          ∃ b, storePoint F de now p = .ok b ∧
            pointFullCorr b (kv, { m with
              data := de.foldl (fun d p => templateScan d m.dict_template p.1 p.2) [],
              time := some dt }) := by
        intro p kv hp
        obtain ⟨⟨hsrc, hty, htid⟩, hkvmem⟩ := hp
        refine ⟨{ p with value := resolvePoint de p }, ?_, ⟨hsrc, hty, htid⟩, ?_⟩
        · simp [storePoint, htid, hflag']
          rfl
        · have hlu := lookupAssoc_foldl_templateScan hkvmem htmplnd de [] hdnd rfl
          show resolvePoint de p
            = lookupAssoc (de.foldl (fun d p => templateScan d m.dict_template p.1 p.2) []) kv.1
          rw [hlu]
          cases hl : lookupAssoc de kv.1 with
          | none => simp [resolvePoint, hsrc, hl]
          | some v => simp [resolvePoint, hsrc, hty, hl]
      obtain ⟨pts', hmap, hfull⟩ := mapExcept_forall₂ hpoint hpts2
      refine ⟨pts', hmap, ?_⟩
      rw [List.forall₂_map_right_iff]
      exact hfull

theorem measurements_round
    {te de : List (String × String)} {F : List (String × Bool)}
    {T : List (String × Option String)} {now : DateTime} :
    ∀ (ms : List Measurement) (pts : List DataPoint),
      List.Forall₂ pointSchemaCorr pts (fieldEntries ms) →
      (∀ m ∈ ms, ∃ s c dt,
        (m.timestamp_id, s) ∈ te ∧
        convert_to_date s = some dt ∧
        timeMatches c m.time ∧
        ((some s ≠ c) ↔ (some dt ≠ m.time)) ∧
        lookupAssoc F m.timestamp_id = some (decide (some s ≠ c)) ∧
        lookupAssoc T m.timestamp_id = some (if some s ≠ c then some s else c)) →
      (te.map Prod.fst).Nodup →
      (de.map Prod.fst).Nodup →
      (∀ m ∈ ms, ∀ p ∈ te, p.1 ∉ m.dict_template.map Prod.fst) →
      (∀ m ∈ ms, ∀ p ∈ de, p.1 ≠ m.timestamp_id) →
      (∀ m ∈ ms, (m.dict_template.map Prod.fst).Nodup) →
      ∃ ms' pts',
        Measurements.store_data ms (te ++ de) = .ok ms' ∧
        mapExcept (storePoint F de now) pts = .ok pts' ∧
        List.Forall₂ pointFullCorr pts' (fieldEntries ms') ∧
        ∀ m' ∈ ms', ∃ c', lookupAssoc T m'.timestamp_id = some c' ∧
          timeMatches c' m'.time := by
  intro ms
  induction ms with
  | nil =>
    intro pts hpts _ _ _ _ _ _
    have hnil : pts = [] := by simpa [fieldEntries] using hpts
    subst hnil
    exact ⟨[], [], rfl, rfl, List.Forall₂.nil,
      fun m' hm' => absurd hm' (List.not_mem_nil m')⟩
  | cons m rest ih =>
    intro pts hpts hpkg hndte hdnd htnotfield hdnottid htmplnd
    have hfe : fieldEntries (m :: rest)
        = (m.dict_template.map fun kv => (kv, m)) ++ fieldEntries rest := rfl
    rw [hfe] at hpts
    have h1 := List.forall₂_take_append pts _ _ hpts
    have h2 := List.forall₂_drop_append pts _ _ hpts
    obtain ⟨s, c, dt, hste, hparse, htm, hiff, hflagm, hTm⟩ :=
      hpkg m (List.mem_cons_self _ _)
    obtain ⟨m', hm', hmtid, hmtmpl, hmtime, pts1', hmap1, hfull1⟩ :=
      measurement_cycle h1 hste hndte hparse
        (htnotfield m (List.mem_cons_self _ _))
        (hdnottid m (List.mem_cons_self _ _)) hdnd
        (htmplnd m (List.mem_cons_self _ _)) htm hiff hflagm
    obtain ⟨rest', pts2', hsd2, hmap2, hfull2, htc2⟩ :=
      ih (pts.drop (m.dict_template.map fun kv => (kv, m)).length) h2
        (fun q hq => hpkg q (List.mem_cons_of_mem _ hq)) hndte hdnd
        (fun q hq => htnotfield q (List.mem_cons_of_mem _ hq))
        (fun q hq => hdnottid q (List.mem_cons_of_mem _ hq))
        (fun q hq => htmplnd q (List.mem_cons_of_mem _ hq))
    refine ⟨m' :: rest', pts1' ++ pts2', ?_, ?_, ?_, ?_⟩
    · show mapExcept _ _ = _
      have hsd2' : mapExcept
          (fun q => measScan { q with data := [] } (te ++ de)) rest = .ok rest' := hsd2
      simp [mapExcept, hm', hsd2']
    · rw [← List.take_append_drop (m.dict_template.map fun kv => (kv, m)).length pts]
      exact mapExcept_append hmap1 hmap2
    · have hfe' : fieldEntries (m' :: rest')
          = (m'.dict_template.map fun kv => (kv, m')) ++ fieldEntries rest' := rfl
      rw [hfe']
      exact List.rel_append hfull1 hfull2
    · intro m'' hm''
      rcases List.mem_cons.mp hm'' with h | h
      · subst h
        exact ⟨if some s ≠ c then some s else c, by rw [hmtid]; exact hTm, hmtime⟩
      · exact htc2 m'' h

/-- Claim C1 (corrected), amended: the two reconciliation implementations
agree only under restrictive conditions.  On corresponding schemas (one
DataPoint per template field, bound to its measurement's timestamp) with
agreeing pre-cycle stored times, and a corresponding snapshot split into
raw time entries followed by field entries — every group's time scraped
exactly once and before every field, every scraped time parseable, no
snapshot key reused between times and fields or colliding with a
template, and raw time strings canonical (equal parses only for equal
strings against the cache) — one cycle of `Measurements.store_data` and
of `DataList.store_data` produces the same per-field stored values and
corresponding per-group stored times.  Outside these conditions the
implementations diverge (`dual_reconcile_counterexample`). -/
theorem dual_reconcile_equiv
    (ms : List Measurement) (dl : DataList)
    (te de : List (String × String)) (now : DateTime)
    (hschema : List.Forall₂ pointSchemaCorr dl.data_list (fieldEntries ms))
    (htimes : timesCorr ms dl)
    (hndte : (te.map Prod.fst).Nodup)
    (hdnd : (de.map Prod.fst).Nodup)
    (hdecl : ∀ p ∈ te, (lookupAssoc dl.timestamps p.1).isSome)
    (hscraped : ∀ m ∈ ms, ∃ s, (m.timestamp_id, s) ∈ te)
    (hparse : ∀ p ∈ te, convert_to_date p.2 ≠ none)
    (htnotfield : ∀ m ∈ ms, ∀ p ∈ te, p.1 ∉ m.dict_template.map Prod.fst)
    (hdnottid : ∀ m ∈ ms, ∀ p ∈ de, p.1 ≠ m.timestamp_id)
    (htmplnd : ∀ m ∈ ms, (m.dict_template.map Prod.fst).Nodup)
    (hcanon : ∀ m ∈ ms, ∀ s c, (m.timestamp_id, s) ∈ te →
      lookupAssoc dl.timestamps m.timestamp_id = some c →
      convert_to_date s = m.time → c = some s) :
    ∃ ms' dl',
      Measurements.store_data ms (te ++ de) = .ok ms' ∧
      DataList.store_data dl de (te.map fun p => (p.1, some p.2)) now = .ok dl' ∧
      observablyAgree ms' dl' := by
  have hstsome : ∀ p ∈ (te.map fun p => (p.1, some p.2)),
      (lookupAssoc dl.timestamps p.1).isSome := by
    intro p hp
    obtain ⟨q, hq, rfl⟩ := List.mem_map.mp hp
    exact hdecl q hq
  obtain ⟨⟨T, F⟩, hscan⟩ :=
    scanTimes_isSome_ok _ dl.timestamps (initFlags dl.timestamps) hstsome
  have hstnd : ((te.map fun p => (p.1, some p.2)).map Prod.fst).Nodup := by
    rw [List.map_map]
    exact hndte
  have hpkg : ∀ m ∈ ms, ∃ s c dt,
      (m.timestamp_id, s) ∈ te ∧
      convert_to_date s = some dt ∧
      timeMatches c m.time ∧
      ((some s ≠ c) ↔ (some dt ≠ m.time)) ∧
      lookupAssoc F m.timestamp_id = some (decide (some s ≠ c)) ∧
      lookupAssoc T m.timestamp_id = some (if some s ≠ c then some s else c) := by
    intro m hm
    obtain ⟨s, hste⟩ := hscraped m hm
    obtain ⟨c, hc, htm⟩ := htimes m hm
    have hpnn := hparse (m.timestamp_id, s) hste
    cases hdt : convert_to_date s with
    | none => exact absurd hdt hpnn
    | some dt =>
      have hiff : (some s ≠ c) ↔ (some dt ≠ m.time) := by
        constructor
        · intro hne heq
          exact hne ((hcanon m hm s c hste hc (by rw [hdt]; exact heq)).symm)
        · intro hne heq
          rw [← heq] at htm
          obtain ⟨h1, h2⟩ := htm
          rw [hdt] at h1
          exact hne h1
      have hmemst : (m.timestamp_id, some s) ∈ (te.map fun p => (p.1, some p.2)) :=
        List.mem_map_of_mem _ hste
      have hF0 : lookupAssoc (initFlags dl.timestamps) m.timestamp_id
          = some false := by
        rw [lookupAssoc_initFlags, hc]
        rfl
      have hchar := scanTimes_mem_char hstnd hmemst hc hF0 hscan
      by_cases hsc : some s = c
      · have hcond : ¬((some s : Option String) ≠ c ∧
            (some s : Option String) ≠ none) := by simp [hsc]
        rw [if_neg hcond] at hchar
        refine ⟨s, c, dt, hste, hdt, htm, hiff, ?_, ?_⟩
        · rw [hchar.2]
          simp [hsc]
        · rw [hchar.1]
          simp [hsc]
      · have hcond : ((some s : Option String) ≠ c ∧
            (some s : Option String) ≠ none) := ⟨hsc, by simp⟩
        rw [if_pos hcond] at hchar
        refine ⟨s, c, dt, hste, hdt, htm, hiff, ?_, ?_⟩
        · rw [hchar.2]
          simp [hsc]
        · rw [hchar.1]
          simp [hsc]
  obtain ⟨ms', pts', hsd, hmap, hfull, htc⟩ :=
    @measurements_round te de F T now ms dl.data_list hschema hpkg hndte hdnd
      htnotfield hdnottid htmplnd
  refine ⟨ms', { data_list := pts', timestamps := T }, hsd, ?_, hfull, htc⟩
  simp [DataList.store_data, hscan, hmap, bind, Except.bind, pure, Except.pure]

/-- Witness for `dual_reconcile_equiv`: one advancing cycle on the
one-group, one-field schema — the time entry precedes the field entry,
the time parses, and the raw strings are canonical — on which both
implementations store `f = 12` and the advanced time. -/
theorem dual_reconcile_equiv_witness :
    ∃ ms' dl',
      Measurements.store_data [exMeas]
        [("t", "2023-01-01 00:05:00"), ("f", "12")] = .ok ms' ∧
      DataList.store_data exDL [("f", "12")]
        [("t", some "2023-01-01 00:05:00")] ⟨2023, 1, 1, 0, 6, 0⟩ = .ok dl' ∧
      observablyAgree ms' dl' :=
  dual_reconcile_equiv [exMeas] exDL [("t", "2023-01-01 00:05:00")] [("f", "12")]
    ⟨2023, 1, 1, 0, 6, 0⟩
    (List.Forall₂.cons ⟨rfl, rfl, rfl⟩ List.Forall₂.nil)
    (by
      intro m hm
      rw [List.mem_singleton] at hm
      subst hm
      exact ⟨some "2023-01-01 00:00:00", rfl, rfl, by simp [exMeas]⟩)
    (by decide)
    (by decide)
    (by
      intro p hp
      rw [List.mem_singleton] at hp
      subst hp
      rfl)
    (by
      intro m hm
      rw [List.mem_singleton] at hm
      subst hm
      exact ⟨"2023-01-01 00:05:00", by simp [exMeas]⟩)
    (by
      intro p hp
      rw [List.mem_singleton] at hp
      subst hp
      decide)
    (by
      intro m hm p hp
      rw [List.mem_singleton] at hm
      rw [List.mem_singleton] at hp
      subst hm
      subst hp
      decide)
    (by
      intro m hm p hp
      rw [List.mem_singleton] at hm
      rw [List.mem_singleton] at hp
      subst hm
      subst hp
      decide)
    (by
      intro m hm
      rw [List.mem_singleton] at hm
      subst hm
      simp [exMeas])
    (by
      intro m hm s c hste hc heq
      rw [List.mem_singleton] at hm
      subst hm
      rw [List.mem_singleton] at hste
      have hs : s = "2023-01-01 00:05:00" := by
        have h2 := congrArg Prod.snd hste
        simpa using h2
      subst hs
      exact absurd heq (by decide))
